import Mathlib

/-!
Verification of the caching and request-coordination core of the kpulse
repository: the stale-while-revalidate (SWR) cache, the artist identity
mapping cache, and the fixed-window rate limiter.

The TypeScript sources are shallowly embedded:

* JavaScript `Map<string, T>` objects are association lists
  `List (String × T)` with insertion-order-preserving `set`, first-match
  `get`, and key-removing `delete` (keys stay unique because every write
  goes through `jsMapSet`).
* `Date.now()` timestamps are natural-number milliseconds passed
  explicitly to every operation (`now` parameters).
* `process.env.NODE_ENV === "development"` is an explicit boolean
  parameter `isDevelopment`.
* Async control flow of the SWR cache is embedded as a small-step
  transition system over the atomic synchronous segments of the
  JavaScript event loop: a `get` call runs synchronously up to its first
  `await`; promise settlement runs the registered continuations in FIFO
  registration order.  See the `SWR` namespace.
-/

/-- `Map.get`: first binding of the key, if any. -/
def jsMapGet {α : Type} : List (String × α) → String → Option α
  | [], _ => none
  | p :: rest, k => if p.1 = k then some p.2 else jsMapGet rest k

/-- `Map.set`: replace the binding in place (preserving position) or append. -/
def jsMapSet {α : Type} : List (String × α) → String → α → List (String × α)
  | [], k, v => [(k, v)]
  | p :: rest, k, v => if p.1 = k then (k, v) :: rest else p :: jsMapSet rest k v

/-- `Map.delete`: remove the bindings of the key. -/
def jsMapDelete {α : Type} : List (String × α) → String → List (String × α)
  | [], _ => []
  | p :: rest, k => if p.1 = k then jsMapDelete rest k else p :: jsMapDelete rest k


namespace AM

/-! ## Artist ID Mapping Cache (`ArtistMappingCache` in the source) -/

/-- `interface ArtistMapping` from the source.  Optional string fields keep
JavaScript `undefined` as `none`. -/
structure ArtistMapping where
  spotifyId : Option String
  spotifyName : Option String
  lastFmName : Option String
  unifiedId : String
  lastUpdated : Nat
deriving DecidableEq

/-- The private `cache = new Map<string, ArtistMapping>()`. -/
abbrev AMState := List (String × ArtistMapping)

/-- `TTL = 24 * 60 * 60 * 1000` (24 hours). -/
def TTL : Nat := 24 * 60 * 60 * 1000

/-- JavaScript truthiness of an optional string: `undefined` and `""` are falsy. -/
def truthy : Option String → Bool
  | none => false
  | some s => if s = "" then false else true

/-- JavaScript `a || b` on optional strings: `b` (as-is) when `a` is falsy. -/
def jsOr (a b : Option String) : Option String :=
  if truthy a then a else b

/-- `getByUnifiedId`: expired records are deleted and reported absent.
Returns the result together with the (possibly shrunk) table. -/
def getByUnifiedId (m : AMState) (now : Nat) (unifiedId : String) :
    Option ArtistMapping × AMState :=
  match jsMapGet m unifiedId with
  | none => (none, m)
  | some mp =>
    if now - mp.lastUpdated > TTL then (none, jsMapDelete m unifiedId)
    else (some mp, m)

/-- `getBySpotifyId`: linear scan, skipping expired or non-matching records.
The source performs no table mutation in this read. -/
def getBySpotifyId (m : AMState) (now : Nat) (spotifyId : String) :
    Option ArtistMapping :=
  match m with
  | [] => none
  | (_, mp) :: rest =>
    if mp.spotifyId = some spotifyId ∧ now - mp.lastUpdated ≤ TTL then some mp
    else getBySpotifyId rest now spotifyId

/-- `getByLastFmName`: case-insensitive linear scan, skipping expired records.
The source performs no table mutation in this read. -/
def getByLastFmName (m : AMState) (now : Nat) (lastFmName : String) :
    Option ArtistMapping :=
  match m with
  | [] => none
  | (_, mp) :: rest =>
    if mp.lastFmName.map String.toLower = some lastFmName.toLower ∧
        now - mp.lastUpdated ≤ TTL then some mp
    else getByLastFmName rest now lastFmName

/-- The `data` argument of `setMapping`. -/
structure MappingData where
  unifiedId : String
  spotifyId : Option String
  spotifyName : Option String
  lastFmName : Option String
deriving DecidableEq

/-- `setMapping`: merge truthy supplied fields over the existing record
(`data.field || existing?.field`) and refresh `lastUpdated`. -/
def setMapping (m : AMState) (now : Nat) (d : MappingData) : AMState :=
  let existing := jsMapGet m d.unifiedId
  let mp : ArtistMapping :=
    { spotifyId := jsOr d.spotifyId (existing.bind (fun e => e.spotifyId))
      spotifyName := jsOr d.spotifyName (existing.bind (fun e => e.spotifyName))
      lastFmName := jsOr d.lastFmName (existing.bind (fun e => e.lastFmName))
      unifiedId := d.unifiedId
      lastUpdated := now }
  jsMapSet m d.unifiedId mp

end AM

namespace RL

/-! ## Rate limiter (`RateLimiter` in `src/lib/rateLimiter.ts`) -/

/-- `interface RateLimitEntry` from the source. -/
structure RLEntry where
  count : Nat
  resetTime : Nat
  blocked : Bool
  blockUntil : Option Nat
  burstCount : Nat
  lastBurstReset : Nat
deriving DecidableEq

/-- The private `limits = new Map<string, RateLimitEntry>()`. -/
abbrev RLState := List (String × RLEntry)

/-- A `{ max, window }` pair from the `LIMITS` table. -/
structure Limit where
  maxReq : Nat
  window : Nat
deriving DecidableEq

/-- `LIMITS.blockDuration = 30000`. -/
def blockDuration : Nat := 30000

/-- `LIMITS.burstWindow = 60000`. -/
def burstWindow : Nat := 60000

/-- `LIMITS.burstMax = 300`. -/
def burstMax : Nat := 300

/-- The per-key `{ max, window }` entries of the `LIMITS` table
(including `"global"`); `none` for keys not in the table. -/
def LIMITS (k : String) : Option Limit :=
  if k = "artist-detail" then some ⟨500, 60000⟩
  else if k = "artist-search" then some ⟨500, 60000⟩
  else if k = "artist-image" then some ⟨1000, 60000⟩
  else if k = "spotify-tracks" then some ⟨100, 300000⟩
  else if k = "spotify-albums" then some ⟨50, 300000⟩
  else if k = "spotify-related" then some ⟨100, 300000⟩
  else if k = "trending-artists" then some ⟨100, 600000⟩
  else if k = "youtube-videos" then some ⟨50, 3600000⟩
  else if k = "artist-news" then some ⟨200, 3600000⟩
  else if k = "global" then some ⟨2000, 60000⟩
  else none

/-- `LIMITS.global`. -/
def globalLimit : Limit := ⟨2000, 60000⟩

/-- The `getWindow` helper inside `getOrCreateEntry`: the key's configured
window, defaulting to 60000. -/
def getWindow (k : String) : Nat :=
  match LIMITS k with
  | some l => l.window
  | none => 60000

/-- The endpoint union type of `checkLimit`. -/
inductive Endpoint
  | artistDetail
  | artistSearch
  | artistImage
  | spotifyTracks
  | spotifyAlbums
  | spotifyRelated
  | trendingArtists
  | youtubeVideos
  | artistNews
deriving DecidableEq

/-- The string key of an endpoint. -/
def Endpoint.key : Endpoint → String
  | .artistDetail => "artist-detail"
  | .artistSearch => "artist-search"
  | .artistImage => "artist-image"
  | .spotifyTracks => "spotify-tracks"
  | .spotifyAlbums => "spotify-albums"
  | .spotifyRelated => "spotify-related"
  | .trendingArtists => "trending-artists"
  | .youtubeVideos => "youtube-videos"
  | .artistNews => "artist-news"

/-- `this.LIMITS[endpoint]` for a valid endpoint. -/
def Endpoint.limit (ep : Endpoint) : Limit :=
  (LIMITS ep.key).getD ⟨0, 60000⟩

/-- `Math.ceil(x / 1000)` for the non-negative quantities the limiter divides. -/
def ceilDiv1000 (x : Nat) : Nat := (x + 999) / 1000

/-- The entry lazily created for a key that has none yet. -/
def freshEntry (now : Nat) (key : String) : RLEntry :=
  { count := 0
    resetTime := now + getWindow key
    blocked := false
    blockUntil := none
    burstCount := 0
    lastBurstReset := now }

/-- Reset counter (and clear the block) if the fixed window expired. -/
def resetWindow (now : Nat) (key : String) (e : RLEntry) : RLEntry :=
  if now > e.resetTime then
    { e with
      count := 0
      resetTime := now + getWindow key
      blocked := false
      blockUntil := none }
  else e

/-- Reset burst counter if the burst window expired. -/
def resetBurst (now : Nat) (e : RLEntry) : RLEntry :=
  if now > e.lastBurstReset + burstWindow then
    { e with burstCount := 0, lastBurstReset := now }
  else e

/-- Keep a live block, or unblock once `blockUntil` has elapsed. -/
def clearExpiredBlock (now : Nat) (e : RLEntry) : RLEntry :=
  match e.blockUntil, e.blocked with
  | some b, true =>
    if now < b then e
    else { e with blocked := false, count := 0, burstCount := 0, blockUntil := none }
  | _, _ => e

/-- `getOrCreateEntry`: lazily create the entry, reset an elapsed fixed
window (clearing any block with it), reset an elapsed burst window, and
clear an expired block.  Returns the maintained entry and the updated map
(the source mutates the map entry in place). -/
def getOrCreateEntry (m : RLState) (now : Nat) (key : String) : RLEntry × RLState :=
  let e0 : RLEntry :=
    match jsMapGet m key with
    | some e => e
    | none => freshEntry now key
  let e3 : RLEntry := clearExpiredBlock now (resetBurst now (resetWindow now key e0))
  (e3, jsMapSet m key e3)

/-- The `{ allowed, remaining, resetIn, message? }` result of a check. -/
structure RLResult where
  allowed : Bool
  remaining : Nat
  resetIn : Nat
  message : Option String
deriving DecidableEq

/-- The burst rejection test of `checkLimit` (production only): burst
usage at its cap and less than 3 seconds left in the burst window. -/
def burstReject (isDevelopment : Bool) (g : RLEntry) (now : Nat) : Bool :=
  if isDevelopment then false
  else if g.burstCount ≥ burstMax then
    decide (ceilDiv1000 (g.lastBurstReset + burstWindow - now) ≤ 3)
  else false

/-- The writes of `checkLimit`'s overflow branch: set `blocked` and
`blockUntil` on whichever of the two maintained entries overflowed. -/
def applyBlocks (m2 : RLState) (epKey : String) (e g : RLEntry) (now epMax gMax : Nat) :
    RLState :=
  let m3 :=
    if e.count ≥ epMax then
      jsMapSet m2 epKey { e with blocked := true, blockUntil := some (now + blockDuration) }
    else m2
  if g.count ≥ gMax then
    jsMapSet m3 "global" { g with blocked := true, blockUntil := some (now + blockDuration) }
  else m3

/-- `checkLimit(endpoint)`: maintain both entries, reject if either is
blocked, block and reject on count overflow, apply the soft burst
throttle in production, otherwise increment and accept. -/
def checkLimit (m : RLState) (now : Nat) (isDevelopment : Bool) (ep : Endpoint) :
    RLResult × RLState :=
  let p1 := getOrCreateEntry m now ep.key
  let endpointEntry := p1.1
  let p2 := getOrCreateEntry p1.2 now "global"
  let globalEntry := p2.1
  let m2 := p2.2
  if endpointEntry.blocked then
    (⟨false, 0, ceilDiv1000 (endpointEntry.blockUntil.getD 0 - now),
      some "endpoint blocked due to rate limit exceeded"⟩, m2)
  else if globalEntry.blocked then
    (⟨false, 0, ceilDiv1000 (globalEntry.blockUntil.getD 0 - now),
      some "all API calls blocked due to global rate limit exceeded"⟩, m2)
  else if endpointEntry.count ≥ ep.limit.maxReq ∨ globalEntry.count ≥ globalLimit.maxReq then
    (⟨false, 0, ceilDiv1000 blockDuration,
      some "rate limit exceeded, please wait before making more requests"⟩,
     applyBlocks m2 ep.key endpointEntry globalEntry now ep.limit.maxReq globalLimit.maxReq)
  else if burstReject isDevelopment globalEntry now then
    (⟨false, 0, ceilDiv1000 (globalEntry.lastBurstReset + burstWindow - now),
      some "please slow down a bit"⟩, m2)
  else
    let e' := { endpointEntry with count := endpointEntry.count + 1 }
    let g' :=
      { globalEntry with
        count := globalEntry.count + 1,
        burstCount :=
          if isDevelopment then globalEntry.burstCount else globalEntry.burstCount + 1 }
    let m3 := jsMapSet m2 ep.key e'
    let m4 := jsMapSet m3 "global" g'
    (⟨true,
      min (ep.limit.maxReq - e'.count) (globalLimit.maxReq - g'.count),
      ceilDiv1000 (min (endpointEntry.resetTime - now) (globalEntry.resetTime - now)),
      none⟩, m4)

/-- `checkLimitWithoutIncrement(endpoint)`: same lazy maintenance, but the
only rejection test is the two `blocked` flags, and no counter is ever
incremented. -/
def checkLimitWithoutIncrement (m : RLState) (now : Nat) (ep : Endpoint) :
    RLResult × RLState :=
  let p1 := getOrCreateEntry m now ep.key
  let endpointEntry := p1.1
  let p2 := getOrCreateEntry p1.2 now "global"
  let globalEntry := p2.1
  let m2 := p2.2
  if endpointEntry.blocked ∨ globalEntry.blocked then
    (⟨false, 0, ceilDiv1000 blockDuration,
      some "rate limited, cache hit avoided API call"⟩, m2)
  else
    (⟨true,
      min (ep.limit.maxReq - endpointEntry.count) (globalLimit.maxReq - globalEntry.count),
      ceilDiv1000 (endpointEntry.resetTime - now), none⟩, m2)

/-- The `count` field of a key's entry, 0 when absent. -/
def countOf (m : RLState) (k : String) : Nat :=
  match jsMapGet m k with
  | some e => e.count
  | none => 0

/-- The `burstCount` field of a key's entry, 0 when absent. -/
def burstOf (m : RLState) (k : String) : Nat :=
  match jsMapGet m k with
  | some e => e.burstCount
  | none => 0

end RL

namespace SWR

/-! ## Stale-While-Revalidate cache (`SWRCache` in the source)

The cache is keyed by caller-supplied strings and no operation on key `K`
reads or writes the table slots of any other key, so the embedding models
the lifecycle of one key.  JavaScript async execution is embedded as a
transition system whose atomic steps are the synchronous segments of the
event loop:

* `Event.get cid now ct` runs one `get` call's synchronous prefix (the
  code of `get` up to `await this.executeFetch(...)`, which either joins
  the key's in-flight promise or invokes the `revalidator` and registers
  the new promise) at time `now`.
* `Event.resolve fo now` settles the key's in-flight promise with outcome
  `fo`: the creating `executeFetch`'s `finally` removes the promise from
  `revalidationPromises`, and the registered continuations (awaiting
  `get` callers, and the `.then`/`.catch` of a background revalidation)
  run in FIFO registration order, exactly as promise reactions do.

`fetchesStarted` counts the invocations of the `revalidator` closure, and
`fetchId`/`nextFid` name the in-flight promise so that deduplication is a
provable property rather than a structural one. -/

/-- The `ContentType` string union of the source. -/
inductive ContentType
  | artistSearch
  | artistData
  | artistStats
  | tracks
  | similar
  | related
  | videos
  | news
  | trending
  | artistMapping
deriving DecidableEq

/-- `interface CacheConfig`. -/
structure CacheConfig where
  freshTTL : Nat
  staleTTL : Nat
  description : String
deriving DecidableEq

/-- The static `CONFIG` table of the source, with its exact durations. -/
def CONFIG : ContentType → CacheConfig
  | .artistSearch => ⟨10 * 60 * 1000, 60 * 60 * 1000, "Artist search results"⟩
  | .artistData => ⟨30 * 60 * 1000, 2 * 60 * 60 * 1000, "Artist biographical data"⟩
  | .artistStats => ⟨60 * 60 * 1000, 4 * 60 * 60 * 1000, "Artist followers popularity stats"⟩
  | .tracks => ⟨24 * 60 * 60 * 1000, 7 * 24 * 60 * 60 * 1000, "Artist top tracks"⟩
  | .similar => ⟨6 * 60 * 60 * 1000, 24 * 60 * 60 * 1000, "Similar artists recommendations"⟩
  | .related => ⟨6 * 60 * 60 * 1000, 24 * 60 * 60 * 1000, "Related artists from Spotify"⟩
  | .videos => ⟨6 * 60 * 60 * 1000, 24 * 60 * 60 * 1000, "YouTube videos"⟩
  | .news => ⟨4 * 60 * 60 * 1000, 12 * 60 * 60 * 1000, "Artist news articles"⟩
  | .trending => ⟨15 * 60 * 1000, 60 * 60 * 1000, "Trending artists"⟩
  | .artistMapping => ⟨24 * 60 * 60 * 1000, 7 * 24 * 60 * 60 * 1000, "Artist ID mappings"⟩

/-- `interface CacheEntry<T>` for one key. -/
structure CacheEntry (V : Type) where
  data : V
  createdAt : Nat
  isRevalidating : Bool
  contentType : ContentType
deriving DecidableEq

/-- The `source` field of a `get` result. -/
inductive Source
  | cache
  | fresh
deriving DecidableEq

/-- The `{ data, isStale, source }` value a `get` call resolves with. -/
structure GetResult (V : Type) where
  data : V
  isStale : Bool
  source : Source
deriving DecidableEq

/-- How a `get` call ends: with a result, or with the propagated
rejection of the fetch it awaited (errors are numbered tokens). -/
inductive Outcome (V : Type)
  | ok (r : GetResult V)
  | err (e : Nat)
deriving DecidableEq

/-- A continuation registered on the key's in-flight promise, in FIFO
order: an awaiting Absent/Expired `get` caller (which captured its own
`now` for the `createdAt` it will write), or the `.then`/`.catch` pair of
a background revalidation. -/
inductive Waiter
  | sync (cid : Nat) (startTime : Nat) (ct : ContentType) (fid : Nat)
  | bg (ct : ContentType) (fid : Nat)
deriving DecidableEq

/-- `true` exactly on background-revalidation continuations. -/
def Waiter.isBg : Waiter → Bool
  | .sync _ _ _ _ => false
  | .bg _ _ => true

/-- The state of one key: its `cache` slot, its `revalidationPromises`
slot (`fetchId`), the promise-name supply, the number of `revalidator`
invocations so far, the registered continuations, and the outcomes of
completed `get` calls. -/
structure KeyState (V : Type) where
  entry : Option (CacheEntry V)
  fetchId : Option Nat
  nextFid : Nat
  fetchesStarted : Nat
  waiters : List Waiter
  finished : List (Nat × Outcome V)
deriving DecidableEq

/-- The state of a key never touched: no entry, no in-flight promise. -/
def initState (V : Type) : KeyState V :=
  { entry := none, fetchId := none, nextFid := 0, fetchesStarted := 0,
    waiters := [], finished := [] }

/-- `executeFetch`: join the key's in-flight promise if there is one,
otherwise invoke the `revalidator` and register the new promise.  `mk`
builds the continuation to register (an awaiting caller or a background
reaction). -/
def executeFetch {V : Type} (s : KeyState V) (mk : Nat → Waiter) : KeyState V :=
  match s.fetchId with
  | some f => { s with waiters := s.waiters ++ [mk f] }
  | none =>
    { s with
      fetchId := some s.nextFid
      nextFid := s.nextFid + 1
      fetchesStarted := s.fetchesStarted + 1
      waiters := s.waiters ++ [mk s.nextFid] }

/-- Record a `get` call that returned synchronously. -/
def finishCall {V : Type} (s : KeyState V) (cid : Nat) (o : Outcome V) : KeyState V :=
  { s with finished := s.finished ++ [(cid, o)] }

/-- `triggerBackgroundRevalidation`: mark the entry as revalidating and
fire `executeFetch` without awaiting it. -/
def triggerBackgroundRevalidation {V : Type} (s : KeyState V) (e : CacheEntry V)
    (ct : ContentType) : KeyState V :=
  executeFetch { s with entry := some { e with isRevalidating := true } } (Waiter.bg ct)

/-- The synchronous prefix of `get(key, contentType, revalidator)` at
time `now` for caller `cid`: the Absent / Expired / Fresh / Stale
branching of the source, with ages computed against the argument content
type's config. -/
def stepGet {V : Type} (s : KeyState V) (cid now : Nat) (ct : ContentType) : KeyState V :=
  let config := CONFIG ct
  match s.entry with
  | none => executeFetch s (Waiter.sync cid now ct)
  | some e =>
    let age := now - e.createdAt
    if age > config.staleTTL then executeFetch s (Waiter.sync cid now ct)
    else if age ≤ config.freshTTL then
      finishCall s cid (.ok ⟨e.data, false, .cache⟩)
    else if e.isRevalidating then
      finishCall s cid (.ok ⟨e.data, true, .cache⟩)
    else
      finishCall (triggerBackgroundRevalidation s e ct) cid (.ok ⟨e.data, true, .cache⟩)

/-- How the in-flight promise settles. -/
inductive FetchOutcome (V : Type)
  | success (v : V)
  | failure (e : Nat)
deriving DecidableEq

/-- Run one registered continuation when the promise settles at time
`now`: an awaiting Absent/Expired caller writes the entry with its own
captured `now` as `createdAt` and resolves `fresh`, or rethrows the
error; a background `.then` overwrites the entry with `createdAt :=
Date.now()`, and the `.catch` clears the `isRevalidating` flag and keeps
the stale entry. -/
def applyWaiter {V : Type} (now : Nat) (fo : FetchOutcome V) (s : KeyState V)
    (w : Waiter) : KeyState V :=
  match w, fo with
  | .sync cid st ct _, .success v =>
    { s with
      entry := some ⟨v, st, false, ct⟩
      finished := s.finished ++ [(cid, .ok ⟨v, false, .fresh⟩)] }
  | .sync cid _ _ _, .failure e =>
    { s with finished := s.finished ++ [(cid, .err e)] }
  | .bg ct _, .success v => { s with entry := some ⟨v, now, false, ct⟩ }
  | .bg _ _, .failure _ =>
    { s with entry := s.entry.map (fun e => { e with isRevalidating := false }) }

/-- Settle the key's in-flight promise: the creator's `finally` deletes
it from `revalidationPromises`, then the registered continuations run in
FIFO order.  Not enabled when no fetch is in flight. -/
def stepResolve {V : Type} (s : KeyState V) (fo : FetchOutcome V) (now : Nat) :
    Option (KeyState V) :=
  match s.fetchId with
  | none => none
  | some _ =>
    some (s.waiters.foldl (applyWaiter now fo) { s with fetchId := none, waiters := [] })

/-- An atomic event-loop segment touching this key. -/
inductive Event (V : Type)
  | get (cid : Nat) (now : Nat) (ct : ContentType)
  | resolve (fo : FetchOutcome V) (now : Nat)
deriving DecidableEq

/-- One atomic step. -/
def step {V : Type} (s : KeyState V) : Event V → Option (KeyState V)
  | .get cid now ct => some (stepGet s cid now ct)
  | .resolve fo now => stepResolve s fo now

/-- Run a sequence of events. -/
def run {V : Type} (s : KeyState V) : List (Event V) → Option (KeyState V)
  | [] => some s
  | ev :: evs =>
    match step s ev with
    | none => none
    | some s' => run s' evs

/-- States reachable from the untouched key. -/
inductive Reachable {V : Type} : KeyState V → Prop
  | base : Reachable (initState V)
  | next {s : KeyState V} {ev : Event V} {s' : KeyState V} :
      Reachable s → step s ev = some s' → Reachable s'

/-- Number of background revalidations registered on the in-flight promise. -/
def bgCount (ws : List Waiter) : Nat := (ws.filter Waiter.isBg).length

/-- The `isRevalidating` flag of the key's entry (`false` when absent). -/
def entryRevalidating {V : Type} : Option (CacheEntry V) → Bool
  | none => false
  | some e => e.isRevalidating

/-- The payload-visible part of the cache slot: presence, `data`,
`createdAt` and `contentType` (everything but the `isRevalidating` flag). -/
def entryShape {V : Type} (o : Option (CacheEntry V)) : Option (V × Nat × ContentType) :=
  o.map (fun e => (e.data, e.createdAt, e.contentType))

end SWR

/-! ## Concrete tables and states used by counterexamples and witnesses -/

/-- A table holding one mapping for `"x"` written at time 0 with a Spotify id. -/
def c8Table : AM.AMState := AM.setMapping [] 0 ⟨"x", some "1", some "X", none⟩

/-- The limiter state after 50 allowed `spotify-albums` calls at `t = 0`
followed by a 51st call at `t = 280000` that trips the block
(`blockUntil = 310000`, window `resetTime = 300000`). -/
def c2State : RL.RLState :=
  (List.replicate 50 (0 : Nat) ++ [280000]).foldl
    (fun st t => (RL.checkLimit st t false RL.Endpoint.spotifyAlbums).2) []

/-- The limiter state after 50 allowed `spotify-albums` calls at `t = 0`:
`count = 50` has reached `max = 50` but the entry is not blocked. -/
def c7State : RL.RLState :=
  (List.replicate 50 (0 : Nat)).foldl
    (fun st t => (RL.checkLimit st t false RL.Endpoint.spotifyAlbums).2) []

namespace SWR

/-- What a registered continuation contributes to `finished` when the
promise settles: awaiting callers resolve or reject, background reactions
contribute nothing. -/
def waiterOutcome {V : Type} (fo : FetchOutcome V) : Waiter → Option (Nat × Outcome V)
  | .sync cid _ _ _ =>
    match fo with
    | .success v => some (cid, .ok ⟨v, false, .fresh⟩)
    | .failure e => some (cid, .err e)
  | .bg _ _ => none

/-- The background single-flight invariant: at most one background
revalidation is registered per key, and only while the entry is marked
`isRevalidating`. -/
def InvC4 {V : Type} (s : KeyState V) : Prop :=
  bgCount s.waiters ≤ 1 ∧ (1 ≤ bgCount s.waiters → entryRevalidating s.entry = true)

end SWR

/-- Two concurrent `get` calls used by the dedup witness. -/
def dedupGets : List (Nat × Nat × SWR.ContentType) := [(0, 0, .news), (1, 1, .news)]

/-- A cached fresh entry used by the C3 witness. -/
def s3W : SWR.KeyState Nat :=
  ⟨some ⟨42, 0, false, .artistData⟩, none, 1, 1, [], []⟩

/-- The state after one miss-and-fetch for the C4 witness (reachable). -/
def s4mid : SWR.KeyState Nat :=
  ⟨none, some 0, 1, 1, [SWR.Waiter.sync 0 0 .artistData 0], []⟩

/-- The reachable state holding a cached `artist-data` entry written at 0. -/
def s4W : SWR.KeyState Nat :=
  ⟨some ⟨42, 0, false, .artistData⟩, none, 1, 1, [], [(0, .ok ⟨42, false, .fresh⟩)]⟩

/-- A quiescent expired `news` entry for the C5 witness. -/
def s5W : SWR.KeyState Nat := ⟨some ⟨7, 0, false, .news⟩, none, 0, 0, [], []⟩

/-- A key with a fetch in flight and two awaiting callers for the C6 witness. -/
def s6W : SWR.KeyState Nat :=
  ⟨none, some 0, 1, 1, [SWR.Waiter.sync 0 0 .news 0, SWR.Waiter.sync 1 1 .news 0], []⟩

/-- The state after that fetch rejects with error 9. -/
def s6post : SWR.KeyState Nat :=
  ⟨none, none, 1, 1, [], [(0, SWR.Outcome.err 9), (1, SWR.Outcome.err 9)]⟩

theorem jsMapGet_set_eq {α : Type} (m : List (String × α)) (k : String) (v : α) :
    jsMapGet (jsMapSet m k v) k = some v := by
  induction m with
  | nil => simp [jsMapGet, jsMapSet]
  | cons p rest ih =>
    by_cases h : p.1 = k
    · simp [jsMapGet, jsMapSet, h]
    · simp [jsMapGet, jsMapSet, h, ih]

theorem jsMapGet_set_ne {α : Type} (m : List (String × α)) (k k' : String) (v : α)
    (h : k' ≠ k) : jsMapGet (jsMapSet m k v) k' = jsMapGet m k' := by
  have hkk : ¬k = k' := fun he => h he.symm
  induction m with
  | nil => simp [jsMapGet, jsMapSet, hkk]
  | cons p rest ih =>
    by_cases hp : p.1 = k
    · simp [jsMapGet, jsMapSet, hp, hkk]
    · by_cases hp' : p.1 = k'
      · simp [jsMapGet, jsMapSet, hp, hp', h]
      · simp [jsMapGet, jsMapSet, hp, hp', ih]

/-! ## Helper lemmas for the mapping cache -/

theorem jsOr_falsy (a b : Option String) (h : AM.truthy a = false) : AM.jsOr a b = b := by
  simp [AM.jsOr, h]

theorem jsOr_truthy (a b : Option String) (h : AM.truthy a = true) : AM.jsOr a b = a := by
  simp [AM.jsOr, h]

theorem setMapping_get (m : AM.AMState) (now : Nat) (d : AM.MappingData) :
    jsMapGet (AM.setMapping m now d) d.unifiedId = some
      { spotifyId := AM.jsOr d.spotifyId ((jsMapGet m d.unifiedId).bind (fun e => e.spotifyId))
        spotifyName := AM.jsOr d.spotifyName ((jsMapGet m d.unifiedId).bind (fun e => e.spotifyName))
        lastFmName := AM.jsOr d.lastFmName ((jsMapGet m d.unifiedId).bind (fun e => e.lastFmName))
        unifiedId := d.unifiedId
        lastUpdated := now } :=
  jsMapGet_set_eq m d.unifiedId _

theorem getBySpotifyId_ttl (m : AM.AMState) (now : Nat) (sid : String)
    (mp : AM.ArtistMapping) (h : AM.getBySpotifyId m now sid = some mp) :
    now - mp.lastUpdated ≤ AM.TTL := by
  induction m with
  | nil => simp [AM.getBySpotifyId] at h
  | cons p rest ih =>
    rw [AM.getBySpotifyId] at h
    split at h
    · cases h
      exact (by assumption : _ ∧ _).2
    · exact ih h

theorem getByLastFmName_ttl (m : AM.AMState) (now : Nat) (nm : String)
    (mp : AM.ArtistMapping) (h : AM.getByLastFmName m now nm = some mp) :
    now - mp.lastUpdated ≤ AM.TTL := by
  induction m with
  | nil => simp [AM.getByLastFmName] at h
  | cons p rest ih =>
    rw [AM.getByLastFmName] at h
    split at h
    · cases h
      exact (by assumption : _ ∧ _).2
    · exact ih h

/-- C8 counterexample: the mapping for `"x"` written at time 0 is expired at
`TTL + 1000`; the Spotify-id read then treats it as absent (returns `none`),
yet the record is still in the table — `getBySpotifyId` (like
`getByLastFmName`) performs no deletion in the source, so the expired record
is not "lazily evicted (deleted from the table) by the read that discovers
it" as the claim states for every read operation. -/
theorem mappingSecondaryRead_no_eviction :
    AM.getBySpotifyId c8Table (AM.TTL + 1000) "1" = none
    ∧ AM.getBySpotifyId c8Table (AM.TTL - 1000) "1" ≠ none
    ∧ (jsMapGet c8Table "x").isSome = true := by decide

/-- C8 (amended): no read ever returns a mapping older than `TTL`, and an
expired mapping is treated as "not found" by every read; but only the
canonical-id read `getByUnifiedId` lazily deletes the expired record it
discovers — the secondary-key reads skip it without deleting it.  A mapping
written at time `T` is returned by `getByUnifiedId` at `T + TTL - 1s` and
treated as absent (and evicted) at `T + TTL + 1s`. -/
theorem mappingReads_ttl (m : AM.AMState) (now : Nat) :
    (∀ id mp m2, AM.getByUnifiedId m now id = (some mp, m2) →
        now - mp.lastUpdated ≤ AM.TTL ∧ m2 = m)
    ∧ (∀ id mp, jsMapGet m id = some mp → AM.TTL < now - mp.lastUpdated →
        AM.getByUnifiedId m now id = (none, jsMapDelete m id))
    ∧ (∀ sid mp, AM.getBySpotifyId m now sid = some mp → now - mp.lastUpdated ≤ AM.TTL)
    ∧ (∀ nm mp, AM.getByLastFmName m now nm = some mp → now - mp.lastUpdated ≤ AM.TTL)
    ∧ (∀ (T : Nat) (d : AM.MappingData), ∃ mp : AM.ArtistMapping,
        AM.getByUnifiedId (AM.setMapping m T d) (T + AM.TTL - 1000) d.unifiedId
          = (some mp, AM.setMapping m T d)
        ∧ AM.getByUnifiedId (AM.setMapping m T d) (T + AM.TTL + 1000) d.unifiedId
          = (none, jsMapDelete (AM.setMapping m T d) d.unifiedId)) := by
  refine ⟨?_, ?_, ?_, ?_, ?_⟩
  · intro id mp m2 h
    rw [AM.getByUnifiedId] at h
    split at h
    · cases h
    · split at h
      · cases h
      · cases h
        exact ⟨by omega, rfl⟩
  · intro id mp hGet hOld
    rw [AM.getByUnifiedId, hGet]
    simp only [gt_iff_lt, if_pos hOld]
  · exact fun sid mp h => getBySpotifyId_ttl m now sid mp h
  · exact fun nm mp h => getByLastFmName_ttl m now nm mp h
  · intro T d
    have hTTL : (1000 : Nat) ≤ AM.TTL := by decide
    refine ⟨{ spotifyId := AM.jsOr d.spotifyId ((jsMapGet m d.unifiedId).bind (fun e => e.spotifyId))
              spotifyName := AM.jsOr d.spotifyName ((jsMapGet m d.unifiedId).bind (fun e => e.spotifyName))
              lastFmName := AM.jsOr d.lastFmName ((jsMapGet m d.unifiedId).bind (fun e => e.lastFmName))
              unifiedId := d.unifiedId
              lastUpdated := T }, ?_, ?_⟩
    · rw [AM.getByUnifiedId, setMapping_get]
      have hc : ¬(T + AM.TTL - 1000 - T > AM.TTL) := by omega
      simp only [gt_iff_lt, not_lt] at hc
      simp only [gt_iff_lt, if_neg (not_lt.mpr hc)]
    · rw [AM.getByUnifiedId, setMapping_get]
      have hc : T + AM.TTL + 1000 - T > AM.TTL := by omega
      simp only [gt_iff_lt] at hc
      simp only [gt_iff_lt, if_pos hc]

/-- Witness for `mappingReads_ttl`: the expired-record branch at a concrete
table and time. -/
theorem mappingReads_ttl_witness :
    AM.getByUnifiedId [("x", ⟨some "1", none, none, "x", 0⟩)] (AM.TTL + 1) "x"
      = (none, jsMapDelete [("x", ⟨some "1", none, none, "x", 0⟩)] "x") :=
  (mappingReads_ttl [("x", ⟨some "1", none, none, "x", 0⟩)] (AM.TTL + 1)).2.1
    "x" ⟨some "1", none, none, "x", 0⟩ (by decide) (by decide)

/-- C9: `setMapping` merges truthy supplied fields over the existing record
for the same canonical id (creating one when absent), never erases a
previously known field when the later write omits it or supplies an empty
string, and always refreshes `lastUpdated`.  Upserting a Spotify id and then
a Last.fm name for the same id yields a single record with both populated. -/
theorem setMapping_merges (m : AM.AMState) (now : Nat) (d : AM.MappingData) :
    (∃ mp : AM.ArtistMapping,
      jsMapGet (AM.setMapping m now d) d.unifiedId = some mp
      ∧ mp.unifiedId = d.unifiedId
      ∧ mp.lastUpdated = now
      ∧ (∀ old : AM.ArtistMapping, jsMapGet m d.unifiedId = some old →
          (AM.truthy d.spotifyId = false → mp.spotifyId = old.spotifyId)
          ∧ (AM.truthy d.spotifyName = false → mp.spotifyName = old.spotifyName)
          ∧ (AM.truthy d.lastFmName = false → mp.lastFmName = old.lastFmName))
      ∧ (AM.truthy d.spotifyId = true → mp.spotifyId = d.spotifyId)
      ∧ (AM.truthy d.spotifyName = true → mp.spotifyName = d.spotifyName)
      ∧ (AM.truthy d.lastFmName = true → mp.lastFmName = d.lastFmName))
    ∧ AM.setMapping (AM.setMapping [] 100 ⟨"x", some "1", none, none⟩) 200 ⟨"x", none, none, some "b"⟩
        = [("x", { spotifyId := some "1", spotifyName := none, lastFmName := some "b",
                   unifiedId := "x", lastUpdated := 200 })] := by
  constructor
  · refine ⟨_, setMapping_get m now d, rfl, rfl, ?_, ?_, ?_, ?_⟩
    · intro old hold
      rw [hold]
      exact ⟨fun h => by rw [jsOr_falsy _ _ h]; rfl,
             fun h => by rw [jsOr_falsy _ _ h]; rfl,
             fun h => by rw [jsOr_falsy _ _ h]; rfl⟩
    · exact fun h => jsOr_truthy _ _ h
    · exact fun h => jsOr_truthy _ _ h
    · exact fun h => jsOr_truthy _ _ h
  · decide

/-- Witness for `setMapping_merges`: the two-upsert merge at concrete inputs. -/
theorem setMapping_merges_witness :
    AM.setMapping (AM.setMapping [] 100 ⟨"x", some "1", none, none⟩) 200 ⟨"x", none, none, some "b"⟩
      = [("x", { spotifyId := some "1", spotifyName := none, lastFmName := some "b",
                 unifiedId := "x", lastUpdated := 200 })] :=
  (setMapping_merges [] 0 ⟨"y", none, none, none⟩).2

/-! ## Helper lemmas for the rate limiter -/

theorem getOrCreateEntry_snd (m : RL.RLState) (now : Nat) (key : String) :
    (RL.getOrCreateEntry m now key).2 = jsMapSet m key (RL.getOrCreateEntry m now key).1 := rfl

theorem resetWindow_of_le (now : Nat) (key : String) (e : RL.RLEntry)
    (h : now ≤ e.resetTime) : RL.resetWindow now key e = e := by
  unfold RL.resetWindow
  rw [if_neg (by omega)]

theorem resetBurst_blocked (now : Nat) (e : RL.RLEntry) :
    (RL.resetBurst now e).blocked = e.blocked := by
  unfold RL.resetBurst
  split <;> rfl

theorem resetBurst_blockUntil (now : Nat) (e : RL.RLEntry) :
    (RL.resetBurst now e).blockUntil = e.blockUntil := by
  unfold RL.resetBurst
  split <;> rfl

theorem resetBurst_count (now : Nat) (e : RL.RLEntry) :
    (RL.resetBurst now e).count = e.count := by
  unfold RL.resetBurst
  split <;> rfl

theorem resetWindow_count_le (now : Nat) (key : String) (e : RL.RLEntry) :
    (RL.resetWindow now key e).count ≤ e.count := by
  unfold RL.resetWindow
  split <;> simp

theorem resetWindow_burst (now : Nat) (key : String) (e : RL.RLEntry) :
    (RL.resetWindow now key e).burstCount = e.burstCount := by
  unfold RL.resetWindow
  split <;> rfl

theorem resetBurst_burst_le (now : Nat) (e : RL.RLEntry) :
    (RL.resetBurst now e).burstCount ≤ e.burstCount := by
  unfold RL.resetBurst
  split <;> simp

theorem clearExpiredBlock_count_le (now : Nat) (e : RL.RLEntry) :
    (RL.clearExpiredBlock now e).count ≤ e.count := by
  unfold RL.clearExpiredBlock
  split
  · split <;> simp
  · exact le_refl _

theorem clearExpiredBlock_burst_le (now : Nat) (e : RL.RLEntry) :
    (RL.clearExpiredBlock now e).burstCount ≤ e.burstCount := by
  unfold RL.clearExpiredBlock
  split
  · split <;> simp
  · exact le_refl _

theorem clearExpiredBlock_of_live (now : Nat) (e : RL.RLEntry) (b : Nat)
    (hb : e.blocked = true) (hbu : e.blockUntil = some b) (hlt : now < b) :
    RL.clearExpiredBlock now e = e := by
  unfold RL.clearExpiredBlock
  rw [hbu, hb]
  exact if_pos hlt

theorem getOrCreateEntry_keeps_block (m : RL.RLState) (now : Nat) (key : String)
    (e : RL.RLEntry) (b : Nat) (hGet : jsMapGet m key = some e) (hb : e.blocked = true)
    (hbu : e.blockUntil = some b) (hlt : now < b) (hwin : now ≤ e.resetTime) :
    ((RL.getOrCreateEntry m now key).1).blocked = true := by
  unfold RL.getOrCreateEntry
  simp only [hGet, resetWindow_of_le now key e hwin]
  have hbl : (RL.resetBurst now e).blocked = true := by rw [resetBurst_blocked, hb]
  have hbu' : (RL.resetBurst now e).blockUntil = some b := by rw [resetBurst_blockUntil, hbu]
  rw [clearExpiredBlock_of_live now _ b hbl hbu' hlt, hbl]

theorem getOrCreateEntry_count_le (m : RL.RLState) (now : Nat) (key : String) :
    ((RL.getOrCreateEntry m now key).1).count ≤ RL.countOf m key := by
  unfold RL.getOrCreateEntry RL.countOf
  cases h : jsMapGet m key with
  | none =>
    simp only [h]
    have h1 := clearExpiredBlock_count_le now
      (RL.resetBurst now (RL.resetWindow now key (RL.freshEntry now key)))
    have h2 := resetWindow_count_le now key (RL.freshEntry now key)
    rw [resetBurst_count] at h1
    have : (RL.freshEntry now key).count = 0 := rfl
    omega
  | some e =>
    simp only [h]
    have h1 := clearExpiredBlock_count_le now (RL.resetBurst now (RL.resetWindow now key e))
    have h2 := resetWindow_count_le now key e
    rw [resetBurst_count] at h1
    omega

theorem getOrCreateEntry_burst_le (m : RL.RLState) (now : Nat) (key : String) :
    ((RL.getOrCreateEntry m now key).1).burstCount ≤ RL.burstOf m key := by
  unfold RL.getOrCreateEntry RL.burstOf
  cases h : jsMapGet m key with
  | none =>
    simp only [h]
    have h1 := clearExpiredBlock_burst_le now
      (RL.resetBurst now (RL.resetWindow now key (RL.freshEntry now key)))
    have h2 := resetBurst_burst_le now (RL.resetWindow now key (RL.freshEntry now key))
    rw [resetWindow_burst] at h2
    have : (RL.freshEntry now key).burstCount = 0 := rfl
    omega
  | some e =>
    simp only [h]
    have h1 := clearExpiredBlock_burst_le now (RL.resetBurst now (RL.resetWindow now key e))
    have h2 := resetBurst_burst_le now (RL.resetWindow now key e)
    rw [resetWindow_burst] at h2
    omega

theorem countOf_set (m : RL.RLState) (k : String) (v : RL.RLEntry) (k' : String) :
    RL.countOf (jsMapSet m k v) k' = if k' = k then v.count else RL.countOf m k' := by
  unfold RL.countOf
  by_cases h : k' = k
  · subst h
    rw [jsMapGet_set_eq, if_pos rfl]
  · rw [jsMapGet_set_ne _ _ _ _ h, if_neg h]

theorem burstOf_set (m : RL.RLState) (k : String) (v : RL.RLEntry) (k' : String) :
    RL.burstOf (jsMapSet m k v) k' = if k' = k then v.burstCount else RL.burstOf m k' := by
  unfold RL.burstOf
  by_cases h : k' = k
  · subst h
    rw [jsMapGet_set_eq, if_pos rfl]
  · rw [jsMapGet_set_ne _ _ _ _ h, if_neg h]

theorem countOf_getOrCreateEntry_le (m : RL.RLState) (now : Nat) (key k : String) :
    RL.countOf (RL.getOrCreateEntry m now key).2 k ≤ RL.countOf m k := by
  rw [getOrCreateEntry_snd, countOf_set]
  by_cases h : k = key
  · subst h
    rw [if_pos rfl]
    exact getOrCreateEntry_count_le m now k
  · rw [if_neg h]

theorem burstOf_getOrCreateEntry_le (m : RL.RLState) (now : Nat) (key k : String) :
    RL.burstOf (RL.getOrCreateEntry m now key).2 k ≤ RL.burstOf m k := by
  rw [getOrCreateEntry_snd, burstOf_set]
  by_cases h : k = key
  · subst h
    rw [if_pos rfl]
    exact getOrCreateEntry_burst_le m now k
  · rw [if_neg h]

theorem global_ne_epkey (ep : RL.Endpoint) : "global" ≠ RL.Endpoint.key ep := by
  cases ep <;> decide

theorem jsMapGet_getOrCreateEntry_self (m : RL.RLState) (now : Nat) (key : String) :
    jsMapGet (RL.getOrCreateEntry m now key).2 key = some (RL.getOrCreateEntry m now key).1 := by
  rw [getOrCreateEntry_snd]
  exact jsMapGet_set_eq _ _ _


set_option maxRecDepth 4000 in
/-- C2 counterexample: after the 51st `spotify-albums` call blocks the
endpoint until `t = 310000`, a call at `t = 300001` — still inside the
cooldown — is allowed, because the fixed window (`resetTime = 300000`)
elapsed and `getOrCreateEntry` cleared the block with the window reset.
The block is not a hard cooldown lasting the full `blockDuration`. -/
theorem checkLimit_block_cleared_by_window_reset :
    (jsMapGet c2State "spotify-albums").map (fun e => (e.blocked, e.blockUntil, e.resetTime))
      = some (true, some 310000, 300000)
    ∧ ((RL.checkLimit c2State 300001 false RL.Endpoint.spotifyAlbums).1).allowed = true
    ∧ 300001 < 310000 := by decide

/-- C2 (amended): once a counter (per-endpoint or global) is blocked, every
`checkLimit` call against it is rejected while `now < blockUntil` **and**
the fixed window has not yet elapsed (`now ≤ resetTime`); when the window
elapses first, the maintenance in `getOrCreateEntry` resets the counter and
clears the block early, so the cooldown is only guaranteed up to the window
edge. -/
theorem checkLimit_rejects_while_blocked (m : RL.RLState) (now : Nat) (dev : Bool)
    (ep : RL.Endpoint) :
    (∀ e b, jsMapGet m (RL.Endpoint.key ep) = some e → e.blocked = true →
        e.blockUntil = some b → now < b → now ≤ e.resetTime →
        ((RL.checkLimit m now dev ep).1).allowed = false)
    ∧ (∀ g b, jsMapGet m "global" = some g → g.blocked = true →
        g.blockUntil = some b → now < b → now ≤ g.resetTime →
        ((RL.checkLimit m now dev ep).1).allowed = false) := by
  constructor
  · intro e b hGet hb hbu hlt hwin
    have h1 : ((RL.getOrCreateEntry m now ep.key).1).blocked = true :=
      getOrCreateEntry_keeps_block m now ep.key e b hGet hb hbu hlt hwin
    simp only [RL.checkLimit, h1, if_true]
  · intro g b hGet hb hbu hlt hwin
    have hGet1 : jsMapGet (RL.getOrCreateEntry m now ep.key).2 "global" = some g := by
      rw [getOrCreateEntry_snd, jsMapGet_set_ne _ _ _ _ (global_ne_epkey ep)]
      exact hGet
    have h2 : ((RL.getOrCreateEntry (RL.getOrCreateEntry m now ep.key).2 now "global").1).blocked
        = true :=
      getOrCreateEntry_keeps_block _ now "global" g b hGet1 hb hbu hlt hwin
    by_cases h1 : ((RL.getOrCreateEntry m now ep.key).1).blocked = true
    · simp only [RL.checkLimit, h1, if_true]
    · simp only [RL.checkLimit, h1, h2, if_true, if_false, Bool.false_eq_true]

/-- Witness for `checkLimit_rejects_while_blocked`: a concrete blocked
endpoint entry inside both the cooldown and the window is rejected. -/
theorem checkLimit_rejects_while_blocked_witness :
    ((RL.checkLimit [("spotify-albums", ⟨50, 300000, true, some 310000, 0, 280000⟩)]
        290000 false RL.Endpoint.spotifyAlbums).1).allowed = false :=
  (checkLimit_rejects_while_blocked
      [("spotify-albums", ⟨50, 300000, true, some 310000, 0, 280000⟩)]
      290000 false RL.Endpoint.spotifyAlbums).1
    ⟨50, 300000, true, some 310000, 0, 280000⟩ 310000
    (by decide) (by decide) (by decide) (by decide) (by decide)

set_option maxRecDepth 4000 in
/-- C7 counterexample: with the `spotify-albums` counter at `count = 50 =
max` but not yet blocked, `checkLimitWithoutIncrement` allows the request
while `checkLimit` on the very same state rejects it — the two do **not**
perform the same evaluation. -/
theorem checkWithoutIncrement_differs_from_checkLimit :
    ((RL.checkLimitWithoutIncrement c7State 1 RL.Endpoint.spotifyAlbums).1).allowed = true
    ∧ ((RL.checkLimit c7State 1 false RL.Endpoint.spotifyAlbums).1).allowed = false := by
  decide

/-- C7 (amended): `checkLimitWithoutIncrement` performs the same lazy
maintenance as `checkLimit` (its resulting state is exactly the state after
the two `getOrCreateEntry` calls, so it never increments any counter's
`count` or `burstCount`), but its only rejection test is the two `blocked`
flags: it rejects exactly when the maintained endpoint or global entry is
blocked, and performs no count-threshold or burst evaluation, so it can
allow in states where `checkLimit` would reject. -/
theorem checkWithoutIncrement_spec (m : RL.RLState) (now : Nat) (ep : RL.Endpoint) :
    ((RL.checkLimitWithoutIncrement m now ep).2
        = (RL.getOrCreateEntry (RL.getOrCreateEntry m now ep.key).2 now "global").2)
    ∧ (((RL.checkLimitWithoutIncrement m now ep).1).allowed = false
        ↔ (((RL.getOrCreateEntry m now ep.key).1).blocked = true
            ∨ ((RL.getOrCreateEntry (RL.getOrCreateEntry m now ep.key).2 now "global").1).blocked
                = true))
    ∧ (∀ k, RL.countOf ((RL.checkLimitWithoutIncrement m now ep).2) k ≤ RL.countOf m k
        ∧ RL.burstOf ((RL.checkLimitWithoutIncrement m now ep).2) k ≤ RL.burstOf m k) := by
  have hstate : (RL.checkLimitWithoutIncrement m now ep).2
      = (RL.getOrCreateEntry (RL.getOrCreateEntry m now ep.key).2 now "global").2 := by
    simp only [RL.checkLimitWithoutIncrement]
    split <;> rfl
  refine ⟨hstate, ?_, ?_⟩
  · by_cases hc : ((RL.getOrCreateEntry m now ep.key).1).blocked = true
        ∨ ((RL.getOrCreateEntry (RL.getOrCreateEntry m now ep.key).2 now "global").1).blocked
            = true
    · simp only [RL.checkLimitWithoutIncrement, if_pos hc]
      simpa using hc
    · simp only [RL.checkLimitWithoutIncrement, if_neg hc]
      simpa using hc
  · intro k
    rw [hstate]
    exact ⟨le_trans (countOf_getOrCreateEntry_le _ _ _ _) (countOf_getOrCreateEntry_le _ _ _ _),
           le_trans (burstOf_getOrCreateEntry_le _ _ _ _) (burstOf_getOrCreateEntry_le _ _ _ _)⟩

/-- Witness for `checkWithoutIncrement_spec`: on the empty state the
no-increment check leaves exactly the maintenance-created entries. -/
theorem checkWithoutIncrement_spec_witness :
    (RL.checkLimitWithoutIncrement [] 0 RL.Endpoint.artistNews).2
      = (RL.getOrCreateEntry (RL.getOrCreateEntry [] 0 RL.Endpoint.artistNews.key).2 0
          "global").2 :=
  (checkWithoutIncrement_spec [] 0 RL.Endpoint.artistNews).1


theorem countOf_set_preserving (m : RL.RLState) (kw : String) (v : RL.RLEntry) (k : String)
    (hc : v.count = RL.countOf m kw) :
    RL.countOf (jsMapSet m kw v) k = RL.countOf m k := by
  rw [countOf_set]
  by_cases h : k = kw
  · rw [if_pos h, hc, h]
  · rw [if_neg h]

theorem burstOf_set_preserving (m : RL.RLState) (kw : String) (v : RL.RLEntry) (k : String)
    (hc : v.burstCount = RL.burstOf m kw) :
    RL.burstOf (jsMapSet m kw v) k = RL.burstOf m k := by
  rw [burstOf_set]
  by_cases h : k = kw
  · rw [if_pos h, hc, h]
  · rw [if_neg h]

theorem applyBlocks_counts (m2 : RL.RLState) (epKey : String) (e g : RL.RLEntry)
    (now epMax gMax : Nat) (k : String)
    (hE : RL.countOf m2 epKey = e.count) (hEb : RL.burstOf m2 epKey = e.burstCount)
    (hG : RL.countOf m2 "global" = g.count) (hGb : RL.burstOf m2 "global" = g.burstCount) :
    RL.countOf (RL.applyBlocks m2 epKey e g now epMax gMax) k = RL.countOf m2 k
    ∧ RL.burstOf (RL.applyBlocks m2 epKey e g now epMax gMax) k = RL.burstOf m2 k := by
  simp only [RL.applyBlocks]
  by_cases h1 : e.count ≥ epMax
  · simp only [if_pos h1]
    have hc3 : ∀ k', RL.countOf (jsMapSet m2 epKey
        { e with blocked := true, blockUntil := some (now + RL.blockDuration) }) k'
        = RL.countOf m2 k' :=
      fun k' => countOf_set_preserving m2 epKey _ k' hE.symm
    have hb3 : ∀ k', RL.burstOf (jsMapSet m2 epKey
        { e with blocked := true, blockUntil := some (now + RL.blockDuration) }) k'
        = RL.burstOf m2 k' :=
      fun k' => burstOf_set_preserving m2 epKey _ k' hEb.symm
    by_cases h2 : g.count ≥ gMax
    · simp only [if_pos h2]
      constructor
      · rw [countOf_set_preserving _ _ _ _ (by rw [hc3]; exact hG.symm), hc3]
      · rw [burstOf_set_preserving _ _ _ _ (by rw [hb3]; exact hGb.symm), hb3]
    · simp only [if_neg h2]
      exact ⟨hc3 k, hb3 k⟩
  · simp only [if_neg h1]
    by_cases h2 : g.count ≥ gMax
    · simp only [if_pos h2]
      constructor
      · exact countOf_set_preserving m2 "global" _ k hG.symm
      · exact burstOf_set_preserving m2 "global" _ k hGb.symm
    · simp only [if_neg h2]
      exact ⟨trivial, trivial⟩

/-- C10: a `checkLimit` call that is rejected increments no counter: the
resulting state's `count` and `burstCount` for every key are exactly those
of the lazy-maintenance state (after the two `getOrCreateEntry` calls), and
hence never exceed the pre-call values — a rejected request consumes no
quota, though the call may still lazily create entries, reset an elapsed
window, or clear an expired block. -/
theorem checkLimit_reject_no_increment (m : RL.RLState) (now : Nat) (dev : Bool)
    (ep : RL.Endpoint)
    (h : ((RL.checkLimit m now dev ep).1).allowed = false) :
    ∀ k : String,
      RL.countOf ((RL.checkLimit m now dev ep).2) k
          = RL.countOf (RL.getOrCreateEntry (RL.getOrCreateEntry m now ep.key).2 now "global").2 k
      ∧ RL.burstOf ((RL.checkLimit m now dev ep).2) k
          = RL.burstOf (RL.getOrCreateEntry (RL.getOrCreateEntry m now ep.key).2 now "global").2 k
      ∧ RL.countOf ((RL.checkLimit m now dev ep).2) k ≤ RL.countOf m k
      ∧ RL.burstOf ((RL.checkLimit m now dev ep).2) k ≤ RL.burstOf m k := by
  intro k
  have hchain : ∀ k' : String,
      RL.countOf (RL.getOrCreateEntry (RL.getOrCreateEntry m now ep.key).2 now "global").2 k'
        ≤ RL.countOf m k' :=
    fun k' =>
      le_trans (countOf_getOrCreateEntry_le _ _ _ _) (countOf_getOrCreateEntry_le _ _ _ _)
  have hchainB : ∀ k' : String,
      RL.burstOf (RL.getOrCreateEntry (RL.getOrCreateEntry m now ep.key).2 now "global").2 k'
        ≤ RL.burstOf m k' :=
    fun k' =>
      le_trans (burstOf_getOrCreateEntry_le _ _ _ _) (burstOf_getOrCreateEntry_le _ _ _ _)
  by_cases hb1 : ((RL.getOrCreateEntry m now ep.key).1).blocked = true
  · have hred : (RL.checkLimit m now dev ep).2
        = (RL.getOrCreateEntry (RL.getOrCreateEntry m now ep.key).2 now "global").2 := by
      simp only [RL.checkLimit, hb1, if_true]
    rw [hred]
    exact ⟨rfl, rfl, hchain k, hchainB k⟩
  · by_cases hb2 : ((RL.getOrCreateEntry (RL.getOrCreateEntry m now ep.key).2 now
        "global").1).blocked = true
    · have hred : (RL.checkLimit m now dev ep).2
          = (RL.getOrCreateEntry (RL.getOrCreateEntry m now ep.key).2 now "global").2 := by
        simp only [RL.checkLimit, hb1, hb2, if_true, if_false, Bool.false_eq_true]
      rw [hred]
      exact ⟨rfl, rfl, hchain k, hchainB k⟩
    · by_cases hex : ((RL.getOrCreateEntry m now ep.key).1).count ≥ ep.limit.maxReq
          ∨ ((RL.getOrCreateEntry (RL.getOrCreateEntry m now ep.key).2 now
              "global").1).count ≥ RL.globalLimit.maxReq
      · have hred : (RL.checkLimit m now dev ep).2
            = RL.applyBlocks
                (RL.getOrCreateEntry (RL.getOrCreateEntry m now ep.key).2 now "global").2
                ep.key (RL.getOrCreateEntry m now ep.key).1
                (RL.getOrCreateEntry (RL.getOrCreateEntry m now ep.key).2 now "global").1
                now ep.limit.maxReq RL.globalLimit.maxReq := by
          simp only [RL.checkLimit, hb1, hb2, if_pos hex, if_false, Bool.false_eq_true]
        have hE : RL.countOf (RL.getOrCreateEntry (RL.getOrCreateEntry m now ep.key).2 now
            "global").2 ep.key = ((RL.getOrCreateEntry m now ep.key).1).count := by
          unfold RL.countOf
          rw [getOrCreateEntry_snd (RL.getOrCreateEntry m now ep.key).2 now "global",
            jsMapGet_set_ne _ _ _ _ (fun he => global_ne_epkey ep he.symm),
            jsMapGet_getOrCreateEntry_self]
        have hEb : RL.burstOf (RL.getOrCreateEntry (RL.getOrCreateEntry m now ep.key).2 now
            "global").2 ep.key = ((RL.getOrCreateEntry m now ep.key).1).burstCount := by
          unfold RL.burstOf
          rw [getOrCreateEntry_snd (RL.getOrCreateEntry m now ep.key).2 now "global",
            jsMapGet_set_ne _ _ _ _ (fun he => global_ne_epkey ep he.symm),
            jsMapGet_getOrCreateEntry_self]
        have hG : RL.countOf (RL.getOrCreateEntry (RL.getOrCreateEntry m now ep.key).2 now
            "global").2 "global" = ((RL.getOrCreateEntry (RL.getOrCreateEntry m now ep.key).2
            now "global").1).count := by
          unfold RL.countOf
          rw [jsMapGet_getOrCreateEntry_self]
        have hGb : RL.burstOf (RL.getOrCreateEntry (RL.getOrCreateEntry m now ep.key).2 now
            "global").2 "global" = ((RL.getOrCreateEntry (RL.getOrCreateEntry m now ep.key).2
            now "global").1).burstCount := by
          unfold RL.burstOf
          rw [jsMapGet_getOrCreateEntry_self]
        have hab := applyBlocks_counts
          (RL.getOrCreateEntry (RL.getOrCreateEntry m now ep.key).2 now "global").2
          ep.key (RL.getOrCreateEntry m now ep.key).1
          (RL.getOrCreateEntry (RL.getOrCreateEntry m now ep.key).2 now "global").1
          now ep.limit.maxReq RL.globalLimit.maxReq k hE hEb hG hGb
        rw [hred]
        exact ⟨hab.1, hab.2, hab.1 ▸ hchain k, hab.2 ▸ hchainB k⟩
      · by_cases hbr : RL.burstReject dev
            (RL.getOrCreateEntry (RL.getOrCreateEntry m now ep.key).2 now "global").1 now = true
        · have hred : (RL.checkLimit m now dev ep).2
              = (RL.getOrCreateEntry (RL.getOrCreateEntry m now ep.key).2 now "global").2 := by
            simp only [RL.checkLimit, hb1, hb2, if_neg hex, hbr, if_true, if_false,
              Bool.false_eq_true]
          rw [hred]
          exact ⟨rfl, rfl, hchain k, hchainB k⟩
        · exfalso
          have hfwd : ((RL.checkLimit m now dev ep).1).allowed = true := by
            simp only [RL.checkLimit, hb1, hb2, if_neg hex, hbr, if_false,
              Bool.false_eq_true]
          rw [hfwd] at h
          exact Bool.noConfusion h

/-- Witness for `checkLimit_reject_no_increment`: a rejected call against a
concretely blocked endpoint leaves the endpoint's count unchanged. -/
theorem checkLimit_reject_no_increment_witness :
    RL.countOf ((RL.checkLimit
        [("spotify-albums", ⟨7, 400000, true, some 310000, 0, 280000⟩)]
        1000 false RL.Endpoint.spotifyAlbums).2) "spotify-albums"
      ≤ RL.countOf [("spotify-albums", ⟨7, 400000, true, some 310000, 0, 280000⟩)]
          "spotify-albums" :=
  (checkLimit_reject_no_increment
      [("spotify-albums", ⟨7, 400000, true, some 310000, 0, 280000⟩)]
      1000 false RL.Endpoint.spotifyAlbums (by decide) "spotify-albums").2.2.1


/-! ## Helper lemmas for the SWR cache -/

theorem config_fresh_le_stale (ct : SWR.ContentType) :
    (SWR.CONFIG ct).freshTTL ≤ (SWR.CONFIG ct).staleTTL := by
  cases ct <;> decide

theorem applyWaiter_frame {V : Type} (now : Nat) (fo : SWR.FetchOutcome V)
    (s : SWR.KeyState V) (w : SWR.Waiter) :
    ((SWR.applyWaiter now fo s w).fetchId = s.fetchId)
    ∧ ((SWR.applyWaiter now fo s w).waiters = s.waiters)
    ∧ ((SWR.applyWaiter now fo s w).nextFid = s.nextFid)
    ∧ ((SWR.applyWaiter now fo s w).fetchesStarted = s.fetchesStarted) := by
  cases w <;> cases fo <;> exact ⟨rfl, rfl, rfl, rfl⟩

theorem foldl_applyWaiter_frame {V : Type} (now : Nat) (fo : SWR.FetchOutcome V)
    (ws : List SWR.Waiter) (s : SWR.KeyState V) :
    ((ws.foldl (SWR.applyWaiter now fo) s).fetchId = s.fetchId)
    ∧ ((ws.foldl (SWR.applyWaiter now fo) s).waiters = s.waiters)
    ∧ ((ws.foldl (SWR.applyWaiter now fo) s).nextFid = s.nextFid)
    ∧ ((ws.foldl (SWR.applyWaiter now fo) s).fetchesStarted = s.fetchesStarted) := by
  induction ws generalizing s with
  | nil => exact ⟨rfl, rfl, rfl, rfl⟩
  | cons w ws ih =>
    have h1 := applyWaiter_frame now fo s w
    have h2 := ih (SWR.applyWaiter now fo s w)
    rw [List.foldl_cons]
    exact ⟨h2.1.trans h1.1, h2.2.1.trans h1.2.1, h2.2.2.1.trans h1.2.2.1,
      h2.2.2.2.trans h1.2.2.2⟩

theorem foldl_applyWaiter_finished {V : Type} (now : Nat) (fo : SWR.FetchOutcome V)
    (ws : List SWR.Waiter) (s : SWR.KeyState V) :
    (ws.foldl (SWR.applyWaiter now fo) s).finished
      = s.finished ++ ws.filterMap (SWR.waiterOutcome fo) := by
  induction ws generalizing s with
  | nil => simp
  | cons w ws ih =>
    rw [List.foldl_cons, ih]
    cases w with
    | sync cid st ct fid =>
      cases fo <;> simp [SWR.applyWaiter, SWR.waiterOutcome]
    | bg ct fid =>
      cases fo <;> simp [SWR.applyWaiter, SWR.waiterOutcome]

theorem applyWaiter_failure_entryShape {V : Type} (now e : Nat) (s : SWR.KeyState V)
    (w : SWR.Waiter) :
    SWR.entryShape ((SWR.applyWaiter now (SWR.FetchOutcome.failure e) s w).entry)
      = SWR.entryShape s.entry := by
  cases w with
  | sync cid st ct fid => rfl
  | bg ct fid => cases h : s.entry <;> simp [SWR.applyWaiter, SWR.entryShape, h]

theorem foldl_applyWaiter_failure_entryShape {V : Type} (now e : Nat)
    (ws : List SWR.Waiter) (s : SWR.KeyState V) :
    SWR.entryShape ((ws.foldl (SWR.applyWaiter now (SWR.FetchOutcome.failure e)) s).entry)
      = SWR.entryShape s.entry := by
  induction ws generalizing s with
  | nil => rfl
  | cons w ws ih =>
    rw [List.foldl_cons]
    exact (ih _).trans (applyWaiter_failure_entryShape now e s w)

theorem foldl_applyWaiter_failure_entry_nobg {V : Type} (now e : Nat)
    (ws : List SWR.Waiter) (s : SWR.KeyState V) (h : ∀ w ∈ ws, w.isBg = false) :
    (ws.foldl (SWR.applyWaiter now (SWR.FetchOutcome.failure e)) s).entry = s.entry := by
  induction ws generalizing s with
  | nil => rfl
  | cons w ws ih =>
    rw [List.foldl_cons]
    have hw : w.isBg = false := h w (List.mem_cons_self _ _)
    have hstep : (SWR.applyWaiter now (SWR.FetchOutcome.failure e) s w).entry = s.entry := by
      cases w with
      | sync cid st ct fid => rfl
      | bg ct fid => simp [SWR.Waiter.isBg] at hw
    rw [ih _ (fun w' hw' => h w' (List.mem_cons_of_mem _ hw')), hstep]

theorem entryRevalidating_clear {V : Type} (o : Option (SWR.CacheEntry V)) :
    SWR.entryRevalidating (o.map (fun e => { e with isRevalidating := false })) = false := by
  cases o <;> rfl

theorem foldl_applyWaiter_failure_flag_stays {V : Type} (now e : Nat)
    (ws : List SWR.Waiter) (s : SWR.KeyState V)
    (h : SWR.entryRevalidating s.entry = false) :
    SWR.entryRevalidating
      ((ws.foldl (SWR.applyWaiter now (SWR.FetchOutcome.failure e)) s).entry) = false := by
  induction ws generalizing s with
  | nil => exact h
  | cons w ws ih =>
    rw [List.foldl_cons]
    apply ih
    cases w with
    | sync cid st ct fid => exact h
    | bg ct fid => exact entryRevalidating_clear _

theorem foldl_applyWaiter_failure_flag_bg {V : Type} (now e : Nat) (ws : List SWR.Waiter) :
    ∀ s : SWR.KeyState V, (∃ w ∈ ws, w.isBg = true) →
    SWR.entryRevalidating
      ((ws.foldl (SWR.applyWaiter now (SWR.FetchOutcome.failure e)) s).entry) = false := by
  induction ws with
  | nil =>
    intro s h
    obtain ⟨w, hw, _⟩ := h
    cases hw
  | cons w ws ih =>
    intro s h
    rw [List.foldl_cons]
    cases w with
    | bg ct fid =>
      exact foldl_applyWaiter_failure_flag_stays now e ws _ (entryRevalidating_clear _)
    | sync cid st ct fid =>
      obtain ⟨w', hw', hbg⟩ := h
      rcases List.mem_cons.mp hw' with heq | hmem
      · rw [heq] at hbg
        simp [SWR.Waiter.isBg] at hbg
      · exact ih _ ⟨w', hmem, hbg⟩

theorem bgCount_append (ws1 ws2 : List SWR.Waiter) :
    SWR.bgCount (ws1 ++ ws2) = SWR.bgCount ws1 + SWR.bgCount ws2 := by
  simp [SWR.bgCount, List.filter_append]

theorem no_bg_of_bgCount_zero (ws : List SWR.Waiter) (h : SWR.bgCount ws = 0) :
    ∀ w ∈ ws, w.isBg = false := by
  intro w hw
  cases hb : w.isBg with
  | false => rfl
  | true =>
    exfalso
    have hmem : w ∈ ws.filter SWR.Waiter.isBg := List.mem_filter.mpr ⟨hw, hb⟩
    have : ws.filter SWR.Waiter.isBg = [] := List.length_eq_zero.mp h
    rw [this] at hmem
    cases hmem

theorem exists_bg_of_bgCount_pos (ws : List SWR.Waiter) (h : 1 ≤ SWR.bgCount ws) :
    ∃ w ∈ ws, w.isBg = true := by
  cases hfil : ws.filter SWR.Waiter.isBg with
  | nil =>
    exfalso
    unfold SWR.bgCount at h
    rw [hfil] at h
    cases h
  | cons w rest =>
    have hw : w ∈ ws.filter SWR.Waiter.isBg := by
      rw [hfil]
      exact List.mem_cons_self _ _
    have := List.mem_filter.mp hw
    exact ⟨w, this.1, this.2⟩

theorem executeFetch_entry {V : Type} (s : SWR.KeyState V) (mk : Nat → SWR.Waiter) :
    (SWR.executeFetch s mk).entry = s.entry := by
  cases hf : s.fetchId <;> simp [SWR.executeFetch, hf]

theorem executeFetch_finished {V : Type} (s : SWR.KeyState V) (mk : Nat → SWR.Waiter) :
    (SWR.executeFetch s mk).finished = s.finished := by
  cases hf : s.fetchId <;> simp [SWR.executeFetch, hf]

theorem bgCount_executeFetch_bg {V : Type} (s : SWR.KeyState V) (ct : SWR.ContentType) :
    SWR.bgCount (SWR.executeFetch s (SWR.Waiter.bg ct)).waiters
      = SWR.bgCount s.waiters + 1 := by
  cases hf : s.fetchId with
  | none =>
    simp only [SWR.executeFetch, hf]
    rw [bgCount_append]
    rfl
  | some f =>
    simp only [SWR.executeFetch, hf]
    rw [bgCount_append]
    rfl

theorem invC4_of_fields {V : Type} (s s' : SWR.KeyState V) (hInv : SWR.InvC4 s)
    (hw : SWR.bgCount s'.waiters = SWR.bgCount s.waiters)
    (he : SWR.entryRevalidating s'.entry = SWR.entryRevalidating s.entry) :
    SWR.InvC4 s' := by
  refine ⟨by rw [hw]; exact hInv.1, fun h => ?_⟩
  rw [he]
  exact hInv.2 (by rw [← hw]; exact h)

theorem invC4_executeFetch_sync {V : Type} (s : SWR.KeyState V) (cid t : Nat)
    (ct : SWR.ContentType) (hInv : SWR.InvC4 s) :
    SWR.InvC4 (SWR.executeFetch s (SWR.Waiter.sync cid t ct)) := by
  apply invC4_of_fields s _ hInv
  · cases hf : s.fetchId <;>
      simp [SWR.executeFetch, hf, bgCount_append, SWR.bgCount, SWR.Waiter.isBg]
  · cases hf : s.fetchId <;> simp [SWR.executeFetch, hf]

theorem invC4_finishCall {V : Type} (s : SWR.KeyState V) (cid : Nat) (o : SWR.Outcome V)
    (hInv : SWR.InvC4 s) : SWR.InvC4 (SWR.finishCall s cid o) :=
  invC4_of_fields s _ hInv rfl rfl

theorem invC4_stepGet {V : Type} (s : SWR.KeyState V) (cid now : Nat) (ct : SWR.ContentType)
    (hInv : SWR.InvC4 s) : SWR.InvC4 (SWR.stepGet s cid now ct) := by
  cases he : s.entry with
  | none =>
    simp only [SWR.stepGet, he]
    exact invC4_executeFetch_sync s cid now ct hInv
  | some e =>
    simp only [SWR.stepGet, he]
    split_ifs with h1 h2 h3
    · exact invC4_executeFetch_sync s cid now ct hInv
    · exact invC4_finishCall s cid _ hInv
    · exact invC4_finishCall s cid _ hInv
    · have hbg0 : SWR.bgCount s.waiters = 0 := by
        by_contra hne
        have h1le : 1 ≤ SWR.bgCount s.waiters := Nat.one_le_iff_ne_zero.mpr hne
        have hflag := hInv.2 h1le
        rw [he] at hflag
        exact h3 hflag
      apply invC4_finishCall
      unfold SWR.triggerBackgroundRevalidation
      constructor
      · rw [bgCount_executeFetch_bg]
        show SWR.bgCount s.waiters + 1 ≤ 1
        rw [hbg0]
      · intro hpos
        rw [executeFetch_entry]
        rfl

theorem invC4_stepResolve {V : Type} (s : SWR.KeyState V) (fo : SWR.FetchOutcome V)
    (now : Nat) (s' : SWR.KeyState V) (h : SWR.stepResolve s fo now = some s') :
    SWR.InvC4 s' := by
  unfold SWR.stepResolve at h
  cases hf : s.fetchId with
  | none =>
    rw [hf] at h
    cases h
  | some f =>
    rw [hf] at h
    injection h with hs'
    subst hs'
    have hws := (foldl_applyWaiter_frame now fo s.waiters
      { s with fetchId := none, waiters := [] }).2.1
    constructor
    · rw [hws]
      simp [SWR.bgCount]
    · intro habs
      rw [hws] at habs
      simp [SWR.bgCount] at habs

theorem invC4_step {V : Type} (s : SWR.KeyState V) (ev : SWR.Event V) (s' : SWR.KeyState V)
    (h : SWR.step s ev = some s') (hInv : SWR.InvC4 s) : SWR.InvC4 s' := by
  cases ev with
  | get cid now ct =>
    simp only [SWR.step] at h
    injection h with hs'
    subst hs'
    exact invC4_stepGet s cid now ct hInv
  | resolve fo now => exact invC4_stepResolve s fo now s' h

theorem reachable_invC4 {V : Type} (s : SWR.KeyState V) (hr : SWR.Reachable s) :
    SWR.InvC4 s := by
  induction hr with
  | base =>
    constructor
    · simp [SWR.initState, SWR.bgCount]
    · intro h
      simp [SWR.initState, SWR.bgCount] at h
  | next hr hstep ih => exact invC4_step _ _ _ hstep ih

theorem step_inflight_no_new_fetch {V : Type} (s : SWR.KeyState V) (ev : SWR.Event V)
    (s' : SWR.KeyState V) (f : Nat) (h : SWR.step s ev = some s') (hf : s.fetchId = some f) :
    s'.fetchesStarted = s.fetchesStarted := by
  cases ev with
  | get cid now ct =>
    simp only [SWR.step] at h
    injection h with hs'
    subst hs'
    cases he : s.entry with
    | none => simp [SWR.stepGet, he, SWR.executeFetch, hf]
    | some e =>
      simp only [SWR.stepGet, he]
      split_ifs with h1 h2 h3
      · simp [SWR.executeFetch, hf]
      · rfl
      · rfl
      · simp [SWR.finishCall, SWR.triggerBackgroundRevalidation, SWR.executeFetch, hf]
  | resolve fo now =>
    simp only [SWR.step] at h
    unfold SWR.stepResolve at h
    rw [hf] at h
    injection h with hs'
    subst hs'
    exact (foldl_applyWaiter_frame now fo s.waiters { s with fetchId := none, waiters := [] }).2.2.2

theorem run_gets_inflight {V : Type} (f : Nat) (gets : List (Nat × Nat × SWR.ContentType)) :
    ∀ s : SWR.KeyState V, s.entry = none → s.fetchId = some f →
    SWR.run s (gets.map (fun g => SWR.Event.get g.1 g.2.1 g.2.2)) =
      some { s with waiters := s.waiters ++ gets.map (fun g => SWR.Waiter.sync g.1 g.2.1 g.2.2 f) } := by
  induction gets with
  | nil =>
    intro s he hf
    simp [SWR.run]
  | cons g gs ih =>
    intro s he hf
    rw [List.map_cons]
    have hstep : SWR.stepGet s g.1 g.2.1 g.2.2
        = { s with waiters := s.waiters ++ [SWR.Waiter.sync g.1 g.2.1 g.2.2 f] } := by
      simp [SWR.stepGet, he, SWR.executeFetch, hf]
    have hrec := ih { s with waiters := s.waiters ++ [SWR.Waiter.sync g.1 g.2.1 g.2.2 f] } he hf
    have h1 : SWR.run s (SWR.Event.get g.1 g.2.1 g.2.2
          :: gs.map (fun x => SWR.Event.get x.1 x.2.1 x.2.2))
        = SWR.run (SWR.stepGet s g.1 g.2.1 g.2.2)
            (gs.map (fun x => SWR.Event.get x.1 x.2.1 x.2.2)) := rfl
    rw [h1, hstep, hrec]
    simp [List.append_assoc]

theorem filterMap_sync_success {V : Type} (v : V) (f : Nat)
    (gets : List (Nat × Nat × SWR.ContentType)) :
    (gets.map (fun g => SWR.Waiter.sync g.1 g.2.1 g.2.2 f)).filterMap
        (SWR.waiterOutcome (SWR.FetchOutcome.success v))
      = gets.map (fun g => (g.1, SWR.Outcome.ok ⟨v, false, SWR.Source.fresh⟩)) := by
  induction gets with
  | nil => rfl
  | cons g gs ih => simp [SWR.waiterOutcome, ih]

theorem filterMap_sync_failure {V : Type} (e : Nat) (f : Nat)
    (gets : List (Nat × Nat × SWR.ContentType)) :
    (gets.map (fun g => SWR.Waiter.sync g.1 g.2.1 g.2.2 f)).filterMap
        (SWR.waiterOutcome (V := V) (SWR.FetchOutcome.failure e))
      = gets.map (fun g => (g.1, SWR.Outcome.err e)) := by
  induction gets with
  | nil => rfl
  | cons g gs ih => simp [SWR.waiterOutcome, ih]

theorem stepGet_stale_finished {V : Type} (s : SWR.KeyState V) (e : SWR.CacheEntry V)
    (cid now : Nat) (ct : SWR.ContentType) (he : s.entry = some e)
    (h1 : (SWR.CONFIG ct).freshTTL < now - e.createdAt)
    (h2 : now - e.createdAt ≤ (SWR.CONFIG ct).staleTTL) :
    (SWR.stepGet s cid now ct).finished
      = s.finished ++ [(cid, SWR.Outcome.ok ⟨e.data, true, SWR.Source.cache⟩)] := by
  have hns : ¬(now - e.createdAt > (SWR.CONFIG ct).staleTTL) := by omega
  have hnf : ¬(now - e.createdAt ≤ (SWR.CONFIG ct).freshTTL) := by omega
  simp only [SWR.stepGet, he]
  rw [if_neg hns, if_neg hnf]
  by_cases h3 : e.isRevalidating = true
  · rw [if_pos h3]
    rfl
  · rw [if_neg h3]
    show (SWR.finishCall (SWR.triggerBackgroundRevalidation s e ct) cid _).finished = _
    unfold SWR.finishCall SWR.triggerBackgroundRevalidation
    rw [executeFetch_finished]

theorem resolve_success_finishes_fresh {V : Type} (s0 s' : SWR.KeyState V) (v : V)
    (t cid2 st2 : Nat) (ct2 : SWR.ContentType) (f2 : Nat)
    (hstep : SWR.step s0 (SWR.Event.resolve (SWR.FetchOutcome.success v) t) = some s')
    (hmem : SWR.Waiter.sync cid2 st2 ct2 f2 ∈ s0.waiters) :
    (cid2, SWR.Outcome.ok ⟨v, false, SWR.Source.fresh⟩) ∈ s'.finished := by
  simp only [SWR.step] at hstep
  unfold SWR.stepResolve at hstep
  cases hf : s0.fetchId with
  | none =>
    rw [hf] at hstep
    cases hstep
  | some f =>
    rw [hf] at hstep
    injection hstep with hs'
    subst hs'
    rw [foldl_applyWaiter_finished]
    exact List.mem_append.mpr (Or.inr (List.mem_filterMap.mpr ⟨_, hmem, rfl⟩))

/-- C1: single-flight deduplication.  For any non-empty batch of `get`
calls arriving (in any order, at any times, with any content types) while
the key is Absent and before the fetch settles, the `revalidator` is
invoked exactly once; when the shared fetch then resolves, every caller
receives the identical value (tagged `fresh`, not stale), and when it
rejects, every caller receives the identical error.  Moreover — covering
both the Absent/Expired synchronous path and the stale background path —
no step ever invokes the `revalidator` while a fetch is already in flight
for the key. -/
theorem swr_get_dedup {V : Type} (gets : List (Nat × Nat × SWR.ContentType))
    (hne : gets ≠ []) (v : V) (e t t' : Nat) :
    (∃ s1 : SWR.KeyState V,
      SWR.run (SWR.initState V) (gets.map (fun g => SWR.Event.get g.1 g.2.1 g.2.2)) = some s1
      ∧ s1.fetchesStarted = 1
      ∧ (∃ s2, SWR.run s1 [SWR.Event.resolve (SWR.FetchOutcome.success v) t] = some s2
          ∧ s2.finished = gets.map (fun g => (g.1, SWR.Outcome.ok ⟨v, false, SWR.Source.fresh⟩))
          ∧ s2.fetchesStarted = 1)
      ∧ (∃ s3, SWR.run s1 [SWR.Event.resolve (SWR.FetchOutcome.failure e) t'] = some s3
          ∧ s3.finished = gets.map (fun g => (g.1, SWR.Outcome.err e))
          ∧ s3.fetchesStarted = 1))
    ∧ ∀ (s : SWR.KeyState V) (ev : SWR.Event V) (s' : SWR.KeyState V) (f : Nat),
        SWR.step s ev = some s' → s.fetchId = some f →
        s'.fetchesStarted = s.fetchesStarted := by
  constructor
  · obtain ⟨g, gs, rfl⟩ : ∃ g gs, gets = g :: gs := by
      cases gets with
      | nil => exact absurd rfl hne
      | cons g gs => exact ⟨g, gs, rfl⟩
    have h1 : SWR.run (SWR.initState V)
        ((g :: gs).map (fun x => SWR.Event.get x.1 x.2.1 x.2.2))
        = SWR.run
            ({ entry := none, fetchId := some 0, nextFid := 1, fetchesStarted := 1,
               waiters := [SWR.Waiter.sync g.1 g.2.1 g.2.2 0], finished := [] } : SWR.KeyState V)
            (gs.map (fun x => SWR.Event.get x.1 x.2.1 x.2.2)) := rfl
    have h2 := run_gets_inflight (V := V) 0 gs
      { entry := none, fetchId := some 0, nextFid := 1, fetchesStarted := 1,
        waiters := [SWR.Waiter.sync g.1 g.2.1 g.2.2 0], finished := [] } rfl rfl
    refine ⟨_, h1.trans h2, rfl, ?_, ?_⟩
    · refine ⟨_, rfl, ?_, ?_⟩
      · show (((g :: gs).map (fun x => SWR.Waiter.sync x.1 x.2.1 x.2.2 0)).foldl
            (SWR.applyWaiter t (SWR.FetchOutcome.success v)) _).finished = _
        rw [foldl_applyWaiter_finished, filterMap_sync_success]
        rfl
      · show (((g :: gs).map (fun x => SWR.Waiter.sync x.1 x.2.1 x.2.2 0)).foldl
            (SWR.applyWaiter t (SWR.FetchOutcome.success v)) _).fetchesStarted = 1
        rw [(foldl_applyWaiter_frame _ _ _ _).2.2.2]
    · refine ⟨_, rfl, ?_, ?_⟩
      · show (((g :: gs).map (fun x => SWR.Waiter.sync x.1 x.2.1 x.2.2 0)).foldl
            (SWR.applyWaiter t' (SWR.FetchOutcome.failure e)) _).finished = _
        rw [foldl_applyWaiter_finished, filterMap_sync_failure]
        rfl
      · show (((g :: gs).map (fun x => SWR.Waiter.sync x.1 x.2.1 x.2.2 0)).foldl
            (SWR.applyWaiter t' (SWR.FetchOutcome.failure e)) _).fetchesStarted = 1
        rw [(foldl_applyWaiter_frame _ _ _ _).2.2.2]
  · exact fun s ev s' f h hf => step_inflight_no_new_fetch s ev s' f h hf


/-- Witness for `swr_get_dedup`: two concurrent misses share one fetch. -/
theorem swr_get_dedup_witness :
    ∃ s1 : SWR.KeyState Nat,
      SWR.run (SWR.initState Nat) (dedupGets.map (fun g => SWR.Event.get g.1 g.2.1 g.2.2))
          = some s1
      ∧ s1.fetchesStarted = 1
      ∧ (∃ s2, SWR.run s1 [SWR.Event.resolve (SWR.FetchOutcome.success 5) 2] = some s2
          ∧ s2.finished
              = dedupGets.map (fun g => (g.1, SWR.Outcome.ok ⟨5, false, SWR.Source.fresh⟩))
          ∧ s2.fetchesStarted = 1)
      ∧ (∃ s3, SWR.run s1 [SWR.Event.resolve (SWR.FetchOutcome.failure 7) 3] = some s3
          ∧ s3.finished = dedupGets.map (fun g => (g.1, SWR.Outcome.err 7))
          ∧ s3.fetchesStarted = 1) :=
  (swr_get_dedup dedupGets (by decide) 5 7 2 3).1

/-- C3: a Fresh hit (`age ≤ freshDuration` for the requested content type)
returns the cached value synchronously with `isStale = false` and
`source = cache`, changing nothing but the completed-calls log — in
particular the `revalidator` is not invoked and no fetch state changes;
and immediately after a successful fetch resolves, every `get` caller that
awaited it receives the fetched value with `source = fresh` and
`isStale = false`. -/
theorem swr_fresh_hit {V : Type} (s : SWR.KeyState V) (e : SWR.CacheEntry V) (cid now : Nat)
    (ct : SWR.ContentType) (he : s.entry = some e)
    (hfresh : now - e.createdAt ≤ (SWR.CONFIG ct).freshTTL) :
    SWR.stepGet s cid now ct
      = { s with finished := s.finished
          ++ [(cid, SWR.Outcome.ok ⟨e.data, false, SWR.Source.cache⟩)] }
    ∧ ∀ (s0 s' : SWR.KeyState V) (v : V) (t cid2 st2 : Nat) (ct2 : SWR.ContentType) (f2 : Nat),
        SWR.step s0 (SWR.Event.resolve (SWR.FetchOutcome.success v) t) = some s' →
        SWR.Waiter.sync cid2 st2 ct2 f2 ∈ s0.waiters →
        (cid2, SWR.Outcome.ok ⟨v, false, SWR.Source.fresh⟩) ∈ s'.finished := by
  constructor
  · have hns : ¬(now - e.createdAt > (SWR.CONFIG ct).staleTTL) := by
      have := config_fresh_le_stale ct
      omega
    have hstep : SWR.stepGet s cid now ct
        = SWR.finishCall s cid (SWR.Outcome.ok ⟨e.data, false, SWR.Source.cache⟩) := by
      simp only [SWR.stepGet, he]
      rw [if_neg hns, if_pos hfresh]
    rw [hstep]
    rfl
  · exact fun s0 s' v t cid2 st2 ct2 f2 h hm =>
      resolve_success_finishes_fresh s0 s' v t cid2 st2 ct2 f2 h hm


/-- Witness for `swr_fresh_hit`: a 10-minute-old `artist-data` entry is
served from cache without any state change but the log. -/
theorem swr_fresh_hit_witness :
    SWR.stepGet s3W 1 600000 SWR.ContentType.artistData
      = { s3W with finished := s3W.finished
          ++ [(1, SWR.Outcome.ok ⟨42, false, SWR.Source.cache⟩)] } :=
  (swr_fresh_hit s3W ⟨42, 0, false, .artistData⟩ 1 600000 SWR.ContentType.artistData
    rfl (by decide)).1

/-- C4: a `get` in the stale window (`freshDuration < age ≤ staleDuration`)
completes in its own synchronous segment with the cached value,
`isStale = true`, `source = cache` — it never awaits the refresh; if a
background revalidation is already in flight (`isRevalidating = true`),
the step changes nothing but the completed-calls log, starting no second
fetch; in every reachable state a registered background revalidation
implies the entry is flagged `isRevalidating`; and every reachable state
has at most one background revalidation registered per key. -/
theorem swr_stale_single_flight {V : Type} (s : SWR.KeyState V) (e : SWR.CacheEntry V)
    (cid now : Nat) (ct : SWR.ContentType) (hr : SWR.Reachable s) (he : s.entry = some e)
    (h1 : (SWR.CONFIG ct).freshTTL < now - e.createdAt)
    (h2 : now - e.createdAt ≤ (SWR.CONFIG ct).staleTTL) :
    (SWR.stepGet s cid now ct).finished
        = s.finished ++ [(cid, SWR.Outcome.ok ⟨e.data, true, SWR.Source.cache⟩)]
    ∧ (e.isRevalidating = true →
        SWR.stepGet s cid now ct
          = { s with finished := s.finished
              ++ [(cid, SWR.Outcome.ok ⟨e.data, true, SWR.Source.cache⟩)] })
    ∧ (1 ≤ SWR.bgCount s.waiters → e.isRevalidating = true)
    ∧ (∀ s' : SWR.KeyState V, SWR.Reachable s' → SWR.bgCount s'.waiters ≤ 1) := by
  have hns : ¬(now - e.createdAt > (SWR.CONFIG ct).staleTTL) := by omega
  have hnf : ¬(now - e.createdAt ≤ (SWR.CONFIG ct).freshTTL) := by omega
  refine ⟨stepGet_stale_finished s e cid now ct he h1 h2, ?_, ?_, ?_⟩
  · intro h3
    have hstep : SWR.stepGet s cid now ct
        = SWR.finishCall s cid (SWR.Outcome.ok ⟨e.data, true, SWR.Source.cache⟩) := by
      simp only [SWR.stepGet, he]
      rw [if_neg hns, if_neg hnf, if_pos h3]
    rw [hstep]
    rfl
  · intro hbg
    have hflag := (reachable_invC4 s hr).2 hbg
    rw [he] at hflag
    exact hflag
  · exact fun s' hr' => (reachable_invC4 s' hr').1


/-- Witness for `swr_stale_single_flight`: a 31-minute-old `artist-data`
entry in a concretely reached state is served stale in the same step. -/
theorem swr_stale_single_flight_witness :
    (SWR.stepGet s4W 1 1860000 SWR.ContentType.artistData).finished
      = s4W.finished ++ [(1, SWR.Outcome.ok ⟨42, true, SWR.Source.cache⟩)] :=
  (swr_stale_single_flight s4W ⟨42, 0, false, .artistData⟩ 1 1860000
    SWR.ContentType.artistData
    (SWR.Reachable.next
      (SWR.Reachable.next SWR.Reachable.base
        ((by decide) : SWR.step (SWR.initState Nat)
          (SWR.Event.get 0 0 SWR.ContentType.artistData) = some s4mid))
      ((by decide) : SWR.step s4mid
        (SWR.Event.resolve (SWR.FetchOutcome.success 42) 0) = some s4W))
    rfl (by decide) (by decide)).1

/-- C5: for an Expired entry (`age > staleDuration`) `get` behaves exactly
like the Absent case: the step is the Absent-case step with the (about to
be overwritten) old entry left in place — same deduplicated fetch join or
start, same waiter registration, same call bookkeeping; and in the
quiescent case the full trace awaits the refresh, writes its result as the
new entry with `createdAt` equal to the `get`'s captured `now`, and
returns it with `source = fresh` and `isStale = false`. -/
theorem swr_expired_eq_absent {V : Type} (s : SWR.KeyState V) (e : SWR.CacheEntry V)
    (cid now : Nat) (ct : SWR.ContentType) (v : V) (t : Nat) (he : s.entry = some e)
    (hexp : (SWR.CONFIG ct).staleTTL < now - e.createdAt) :
    SWR.stepGet s cid now ct
        = { SWR.stepGet { s with entry := none } cid now ct with entry := s.entry }
    ∧ (s.fetchId = none → s.waiters = [] →
        SWR.run s [SWR.Event.get cid now ct, SWR.Event.resolve (SWR.FetchOutcome.success v) t]
          = some { s with
              entry := some ⟨v, now, false, ct⟩
              fetchId := none
              nextFid := s.nextFid + 1
              fetchesStarted := s.fetchesStarted + 1
              waiters := []
              finished := s.finished ++ [(cid, SWR.Outcome.ok ⟨v, false, SWR.Source.fresh⟩)] }) := by
  have hgt : now - e.createdAt > (SWR.CONFIG ct).staleTTL := hexp
  constructor
  · have hL : SWR.stepGet s cid now ct
        = SWR.executeFetch s (SWR.Waiter.sync cid now ct) := by
      simp only [SWR.stepGet, he]
      rw [if_pos hgt]
    have hR : SWR.stepGet { s with entry := none } cid now ct
        = SWR.executeFetch { s with entry := none } (SWR.Waiter.sync cid now ct) := rfl
    rw [hL, hR]
    cases hf : s.fetchId with
    | none => simp [SWR.executeFetch, hf]
    | some f => simp [SWR.executeFetch, hf]
  · intro hf hw
    have hrun1 : SWR.run s
        [SWR.Event.get cid now ct, SWR.Event.resolve (SWR.FetchOutcome.success v) t]
        = SWR.run (SWR.stepGet s cid now ct)
            [SWR.Event.resolve (SWR.FetchOutcome.success v) t] := rfl
    have hsg : SWR.stepGet s cid now ct
        = { s with
            fetchId := some s.nextFid
            nextFid := s.nextFid + 1
            fetchesStarted := s.fetchesStarted + 1
            waiters := s.waiters ++ [SWR.Waiter.sync cid now ct s.nextFid] } := by
      have hL : SWR.stepGet s cid now ct
          = SWR.executeFetch s (SWR.Waiter.sync cid now ct) := by
        simp only [SWR.stepGet, he]
        rw [if_pos hgt]
      rw [hL]
      simp [SWR.executeFetch, hf]
    rw [hrun1, hsg, hw]
    rfl


/-- Witness for `swr_expired_eq_absent`: a 12-hour-plus-old `news` entry is
synchronously refetched and overwritten like a miss. -/
theorem swr_expired_eq_absent_witness :
    SWR.run s5W [SWR.Event.get 1 43200001 SWR.ContentType.news,
        SWR.Event.resolve (SWR.FetchOutcome.success 8) 43200002]
      = some ⟨some ⟨8, 43200001, false, .news⟩, none, 1, 1, [],
          [(1, SWR.Outcome.ok ⟨8, false, SWR.Source.fresh⟩)]⟩ :=
  (swr_expired_eq_absent s5W ⟨7, 0, false, .news⟩ 1 43200001 SWR.ContentType.news 8 43200002
    rfl (by decide)).2 rfl rfl

/-- C6: when the in-flight fetch for a key rejects, every Absent/Expired
`get` caller awaiting it receives that same error; no cache entry is
written — the slot's presence, `data`, `createdAt` and `contentType` are
untouched (exactly unchanged when no background revalidation was
registered); the in-flight promise is removed; if a background
revalidation was registered, its failure only clears the `isRevalidating`
flag (the error is swallowed); and a subsequent `get` in the stale window
still returns the previously cached value as stale. -/
theorem swr_fetch_failure {V : Type} (s : SWR.KeyState V) (f e now : Nat)
    (s' : SWR.KeyState V) (hf : s.fetchId = some f)
    (hstep : SWR.step s (SWR.Event.resolve (SWR.FetchOutcome.failure e) now) = some s') :
    (∀ cid st ct fid, SWR.Waiter.sync cid st ct fid ∈ s.waiters →
        (cid, SWR.Outcome.err e) ∈ s'.finished)
    ∧ SWR.entryShape s'.entry = SWR.entryShape s.entry
    ∧ s'.fetchId = none
    ∧ (SWR.bgCount s.waiters = 0 → s'.entry = s.entry)
    ∧ (1 ≤ SWR.bgCount s.waiters → SWR.entryRevalidating s'.entry = false)
    ∧ (∀ (e0 : SWR.CacheEntry V) (cid2 now2 : Nat) (ct2 : SWR.ContentType),
        s'.entry = some e0 →
        (SWR.CONFIG ct2).freshTTL < now2 - e0.createdAt →
        now2 - e0.createdAt ≤ (SWR.CONFIG ct2).staleTTL →
        (SWR.stepGet s' cid2 now2 ct2).finished
          = s'.finished ++ [(cid2, SWR.Outcome.ok ⟨e0.data, true, SWR.Source.cache⟩)]) := by
  simp only [SWR.step] at hstep
  unfold SWR.stepResolve at hstep
  rw [hf] at hstep
  injection hstep with hs'
  subst hs'
  refine ⟨?_, ?_, ?_, ?_, ?_, ?_⟩
  · intro cid st ct fid hmem
    rw [foldl_applyWaiter_finished]
    exact List.mem_append.mpr (Or.inr (List.mem_filterMap.mpr ⟨_, hmem, rfl⟩))
  · exact foldl_applyWaiter_failure_entryShape now e s.waiters _
  · exact (foldl_applyWaiter_frame now (SWR.FetchOutcome.failure e) s.waiters
      { s with fetchId := none, waiters := [] }).1
  · intro hbg0
    exact foldl_applyWaiter_failure_entry_nobg now e s.waiters _
      (no_bg_of_bgCount_zero s.waiters hbg0)
  · intro hbg1
    exact foldl_applyWaiter_failure_flag_bg now e s.waiters _
      (exists_bg_of_bgCount_pos s.waiters hbg1)
  · intro e0 cid2 now2 ct2 he0 hh1 hh2
    exact stepGet_stale_finished _ e0 cid2 now2 ct2 he0 hh1 hh2


/-- Witness for `swr_fetch_failure`: both awaiting callers receive error 9. -/
theorem swr_fetch_failure_witness :
    (0, SWR.Outcome.err 9) ∈ s6post.finished :=
  (swr_fetch_failure s6W 0 9 2 s6post rfl (by decide)).1 0 0 .news 0 (by decide)
